import Mathlib

/-!
Verification of the content-generator application against its design
specification.  The Python source builds prompts from user options, calls a
generation provider over HTTP, and keeps a history of saved records in one
JSON file (content_history.json).  Every definition below is a shallow
embedding translated from the source: pure functions become Lean functions,
the JSON file becomes an explicit optional file-content value threaded
through the store operations, HTTP responses become explicit response
records, and Python exceptions become Except values.
-/

/-- One saved generated-content entry, as stored in content_history.json.
The dict keys of the Python record become structure fields. -/
structure ContentRecord where
  id : Nat
  keyword : String
  content_type : String
  language : String
  tone : String
  audience : String
  rhyme_scheme : String
  length_words : Nat
  tags : String
  output : String
  timestamp : String
  favorite : Bool
  deriving DecidableEq

/-- The user-supplied fields of a record before save_to_history assigns
id, timestamp and favorite: the dict assembled on the generator page. -/
structure ContentInput where
  keyword : String
  content_type : String
  language : String
  tone : String
  audience : String
  rhyme_scheme : String
  length_words : Nat
  tags : String
  output : String
  deriving DecidableEq

/-- Parsed state of the bytes of content_history.json: either JSON that
parses to a list of records, or malformed text on which json.load raises. -/
inductive FileContent where
  | malformed : FileContent
  | wellFormed : List ContentRecord → FileContent
  deriving DecidableEq

/-- The file-system cell holding content_history.json; none when the file
is absent (os.path.exists is false). -/
abbrev FileState := Option FileContent

/-- load_history: returns the parsed list when the file exists and parses,
and the empty list when the file is absent or json.load raises (the bare
except clause swallows the parse failure). -/
def load_history : FileState → List ContentRecord
  | none => []
  | some .malformed => []
  | some (.wellFormed records) => records

/-- The record written by save_to_history: the three keys id, timestamp and
favorite are assigned on top of the user-supplied dict. -/
def mkSavedRecord (record : ContentInput) (new_id : Nat) (now : String) : ContentRecord :=
  { id := new_id
    keyword := record.keyword
    content_type := record.content_type
    language := record.language
    tone := record.tone
    audience := record.audience
    rhyme_scheme := record.rhyme_scheme
    length_words := record.length_words
    tags := record.tags
    output := record.output
    timestamp := now
    favorite := false }

/-- save_to_history: loads the history, assigns id = len(history) + 1,
timestamp = now (datetime.datetime.now().isoformat(), modelled as the
string argument), favorite = False, appends and rewrites the file. -/
def save_to_history (fs : FileState) (record : ContentInput) (now : String) : FileState :=
  some (.wellFormed (load_history fs ++ [mkSavedRecord record ((load_history fs).length + 1) now]))

/-- The loop body of toggle_favorite: flip the favorite flag on the first
record whose id matches, then break; leave the list unchanged otherwise. -/
def toggle_first (item_id : Nat) : List ContentRecord → List ContentRecord
  | [] => []
  | item :: rest =>
      if item.id == item_id then { item with favorite := !item.favorite } :: rest
      else item :: toggle_first item_id rest

/-- toggle_favorite: loads the history, flips the first matching record and
rewrites the file. -/
def toggle_favorite (fs : FileState) (item_id : Nat) : FileState :=
  some (.wellFormed (toggle_first item_id (load_history fs)))

/-- delete_content: loads the history, keeps every record whose id differs
from item_id, rewrites the file, and returns whether the length changed. -/
def delete_content (fs : FileState) (item_id : Nat) : FileState × Bool :=
  let history := load_history fs
  let updated_history := history.filter (fun item => item.id != item_id)
  (some (.wellFormed updated_history), history.length != updated_history.length)

/-- The bulk deletion on the history page: keeps every record whose id is
not in the list of filtered ids and rewrites the file. -/
def bulk_delete (fs : FileState) (filtered_ids : List Nat) : FileState :=
  some (.wellFormed ((load_history fs).filter (fun item => !(filtered_ids.contains item.id))))

/-- The clear-all action on the history page: rewrites the file with an
empty JSON array. -/
def clear_all (_fs : FileState) : FileState :=
  some (.wellFormed [])

/-- The store operations a single writer can perform on the history file. -/
inductive Op where
  | save : ContentInput → String → Op
  | toggle : Nat → Op
  | delete : Nat → Op
  | bulkDelete : List Nat → Op
  | clearAll : Op
  deriving DecidableEq

/-- Apply one store operation to the file state. -/
def apply_op (fs : FileState) : Op → FileState
  | .save record now => save_to_history fs record now
  | .toggle item_id => toggle_favorite fs item_id
  | .delete item_id => (delete_content fs item_id).1
  | .bulkDelete ids => bulk_delete fs ids
  | .clearAll => clear_all fs

/-- Run a sequence of store operations starting from an absent file. -/
def run_ops (ops : List Op) : FileState :=
  ops.foldl apply_op none

/-- Operations that remove records by id: delete and the bulk deletion. -/
def isDeleteOp : Op → Bool
  | .delete _ => true
  | .bulkDelete _ => true
  | _ => false

/-- A sample user input with empty fields, for concrete executions. -/
def sampleInput : ContentInput :=
  { keyword := "", content_type := "", language := "", tone := "", audience := ""
    rhyme_scheme := "", length_words := 0, tags := "", output := "" }

/-- Append, append, delete the first record: leaves a single record whose
id is 2 while the length is 1. -/
def opsDup : List Op :=
  [.save sampleInput "a", .save sampleInput "b", .delete 1]

/-- One further append after opsDup: assigns id length + 1 = 2 again. -/
def opsDup4 : List Op :=
  opsDup ++ [.save sampleInput "c"]

/-- Containment of a contiguous pattern in a list of characters: the
meaning of the Python operator pat in haystack on strings. -/
def listContains (pat : List Char) : List Char → Bool
  | [] => pat.isEmpty
  | c :: rest => pat.isPrefixOf (c :: rest) || listContains pat rest

/-- The Python substring test pat in haystack. -/
def containsSubstr (haystack pat : String) : Bool :=
  listContains pat.data haystack.data

/-- The Python str.strip method: whitespace removed from both ends. -/
def pyStrip (s : String) : String :=
  ⟨((s.data.dropWhile Char.isWhitespace).reverse.dropWhile Char.isWhitespace).reverse⟩

theorem isPrefixOf_append (p : List Char) : ∀ (l s : List Char),
    p.isPrefixOf l = true → p.isPrefixOf (l ++ s) = true := by
  induction p with
  | nil => intro l s _; simp [List.isPrefixOf]
  | cons a as ih =>
      intro l s h
      cases l with
      | nil => simp [List.isPrefixOf] at h
      | cons b bs =>
          simp only [List.cons_append, List.isPrefixOf, Bool.and_eq_true] at h ⊢
          exact ⟨h.1, ih bs s h.2⟩

theorem isPrefixOf_self (l : List Char) : l.isPrefixOf l = true := by
  induction l with
  | nil => simp [List.isPrefixOf]
  | cons a as ih => simp [List.isPrefixOf, ih]

theorem listContains_nil_pat (s : List Char) : listContains [] s = true := by
  induction s with
  | nil => simp [listContains, List.isEmpty]
  | cons c rest ih => simp [listContains, List.isPrefixOf]

theorem listContains_cons (pat l : List Char) (c : Char)
    (h : listContains pat l = true) : listContains pat (c :: l) = true := by
  simp only [listContains, Bool.or_eq_true]
  exact Or.inr h

theorem listContains_append_left (pat l : List Char) : ∀ (pre : List Char),
    listContains pat l = true → listContains pat (pre ++ l) = true := by
  intro pre h
  induction pre with
  | nil => exact h
  | cons c cs ih => exact listContains_cons pat (cs ++ l) c ih

theorem listContains_append_right (pat : List Char) : ∀ (l suf : List Char),
    listContains pat l = true → listContains pat (l ++ suf) = true := by
  intro l
  induction l with
  | nil =>
      intro suf h
      simp only [listContains, List.isEmpty_iff] at h
      subst h
      simpa using listContains_nil_pat suf
  | cons c rest ih =>
      intro suf h
      simp only [listContains, Bool.or_eq_true] at h ⊢
      rcases h with h | h
      · exact Or.inl (isPrefixOf_append pat (c :: rest) suf h)
      · exact Or.inr (ih suf h)

theorem listContains_self (l : List Char) : listContains l l = true := by
  cases l with
  | nil => simp [listContains, List.isEmpty]
  | cons c rest => simp [listContains, isPrefixOf_self]

theorem listContains_middle (pre pat suf : List Char) :
    listContains pat (pre ++ (pat ++ suf)) = true :=
  listContains_append_left pat (pat ++ suf) pre
    (listContains_append_right pat pat suf (listContains_self pat))

theorem string_data_append (s t : String) : (s ++ t).data = s.data ++ t.data := rfl

theorem string_append_assoc (a b c : String) : a ++ b ++ c = a ++ (b ++ c) := by
  cases a with | mk la =>
  cases b with | mk lb =>
  cases c with | mk lc =>
  show String.mk (la ++ lb ++ lc) = String.mk (la ++ (lb ++ lc))
  exact congrArg String.mk (List.append_assoc la lb lc)

theorem string_append_empty (s : String) : s ++ "" = s := by
  cases s with | mk l =>
  show String.mk (l ++ []) = String.mk l
  exact congrArg String.mk (List.append_nil l)

/-- The single-quote character placed around the keyword in the prompt. -/
def quote_mark : String :=
  String.singleton (Char.ofNat 39)

/-- The content_instructions dict of build_prompt, keyed by content type. -/
def content_instructions (length_words : Nat) : List (String × String) :=
  [("Quote", "Write a memorable, inspiring quote"),
   ("Poem", "Create a " ++ toString length_words ++ "-word poem (3-8 lines preferred)"),
   ("Haiku", "Write a traditional 3-line Haiku (5-7-5 syllable pattern)"),
   ("Motivational Saying", "Create an uplifting motivational saying"),
   ("Social Media Caption", "Write a catchy social media caption (under 280 characters)"),
   ("Song Lyrics", "Write song lyrics with rhythm and flow"),
   ("Story Beginning", "Write an engaging story opening paragraph")]

/-- The language_map dict of build_prompt. -/
def language_map : List (String × String) :=
  [("English", ""),
   ("Hindi", "Write in Hindi language"),
   ("Marathi", "Write in Marathi language"),
   ("Spanish", "Write in Spanish language"),
   ("French", "Write in French language"),
   ("German", "Write in German language")]

/-- The tone_map dict of build_prompt. -/
def tone_map : List (String × String) :=
  [("Funny", "Make it humorous and witty"),
   ("Serious", "Keep it thoughtful and profound"),
   ("Romantic", "Make it romantic and heartfelt"),
   ("Professional", "Keep it professional and polished"),
   ("Inspirational", "Make it uplifting and motivating")]

/-- The audience_map dict of build_prompt. -/
def audience_map : List (String × String) :=
  [("Kids", "Use simple, fun language suitable for children"),
   ("Adults", "Use mature, sophisticated language"),
   ("Professionals", "Use formal, business-appropriate language"),
   ("General", "")]

/-- The rhyme_map dict of build_prompt, keyed by rhyme scheme. -/
def rhyme_map : List (String × String) :=
  [("Free Verse", "Use free verse (no specific rhyme scheme)"),
   ("ABAB", "Use ABAB rhyme scheme"),
   ("AABB", "Use AABB rhyme scheme (couplets)"),
   ("ABCB", "Use ABCB rhyme scheme")]

/-- build_prompt: the base instruction for the content type (dict get with
default Write content), the quoted keyword, then the conditional language,
tone, audience and rhyme clauses, finally stripped of edge whitespace. -/
def build_prompt (keyword content_type language tone audience rhyme_scheme : String)
    (length_words : Nat) : String :=
  let p1 := ((content_instructions length_words).lookup content_type).getD "Write content"
              ++ " about " ++ quote_mark ++ keyword ++ quote_mark ++ ". "
  let p2 := if language != "English" then p1 ++ (language_map.lookup language).getD "" ++ ". " else p1
  let p3 := if tone != "Inspirational" then p2 ++ (tone_map.lookup tone).getD "" ++ ". " else p2
  let p4 := if audience != "General" then p3 ++ (audience_map.lookup audience).getD "" ++ ". " else p3
  let p5 := if content_type == "Poem" && rhyme_scheme != "Free Verse"
            then p4 ++ (rhyme_map.lookup rhyme_scheme).getD "" ++ ". " else p4
  pyStrip p5

/-- The prompt built by build_prompt up to but not including the rhyme
step and the final strip. -/
def prompt_before_rhyme (keyword content_type language tone audience : String)
    (length_words : Nat) : String :=
  let p1 := ((content_instructions length_words).lookup content_type).getD "Write content"
              ++ " about " ++ quote_mark ++ keyword ++ quote_mark ++ ". "
  let p2 := if language != "English" then p1 ++ (language_map.lookup language).getD "" ++ ". " else p1
  let p3 := if tone != "Inspirational" then p2 ++ (tone_map.lookup tone).getD "" ++ ". " else p2
  if audience != "General" then p3 ++ (audience_map.lookup audience).getD "" ++ ". " else p3

/-- The Python str.lower method, modelled character by character. -/
def pyLower (s : String) : String :=
  ⟨s.data.map Char.toLower⟩

/-- The substring condition of search_history: the lowered query occurs in
the lowered keyword, output or tags field. -/
def query_matches (query : String) (item : ContentRecord) : Bool :=
  containsSubstr (pyLower item.keyword) (pyLower query)
    || containsSubstr (pyLower item.output) (pyLower query)
    || containsSubstr (pyLower item.tags) (pyLower query)

/-- The loop of search_history: skip records failing the favorite filter,
skip records failing the type filter (a filter that is None or empty is
inactive, as is the value All), then keep records matching the query. -/
def search_filter_loop (query : String) (filter_type : Option String)
    (filter_favorite : Bool) : List ContentRecord → List ContentRecord
  | [] => []
  | item :: rest =>
      if filter_favorite && !item.favorite then
        search_filter_loop query filter_type filter_favorite rest
      else if (match filter_type with
               | none => false
               | some ft => !(ft == "") && !(ft == "All") && !(item.content_type == ft)) then
        search_filter_loop query filter_type filter_favorite rest
      else if query_matches query item then
        item :: search_filter_loop query filter_type filter_favorite rest
      else
        search_filter_loop query filter_type filter_favorite rest

/-- search_history: loads the history and runs the filter loop over it. -/
def search_history (fs : FileState) (query : String) (filter_type : Option String)
    (filter_favorite : Bool) : List ContentRecord :=
  search_filter_loop query filter_type filter_favorite (load_history fs)

/-- The fixed header of the exported text document. -/
def export_header : String :=
  "AI Quote & Poem Generator - Content History\n" ++ ⟨List.replicate 50 (Char.ofNat 61)⟩ ++ "\n\n"

/-- The per-record section of the exported text document, fields in the
fixed order of the source loop body. -/
def record_block (item : ContentRecord) : String :=
  "ID: " ++ toString item.id ++ "\n"
    ++ "Keyword: " ++ item.keyword ++ "\n"
    ++ "Type: " ++ item.content_type ++ "\n"
    ++ "Language: " ++ item.language ++ "\n"
    ++ "Tone: " ++ item.tone ++ "\n"
    ++ "Date: " ++ item.timestamp ++ "\n"
    ++ "Favorite: " ++ (if item.favorite then "Yes" else "No") ++ "\n"
    ++ "Tags: " ++ item.tags ++ "\n"
    ++ "Content:\n" ++ item.output ++ "\n"
    ++ ⟨List.replicate 30 (Char.ofNat 45)⟩ ++ "\n\n"

/-- The concatenation of the per-record sections, in list order. -/
def history_blocks : List ContentRecord → String
  | [] => ""
  | item :: rest => record_block item ++ history_blocks rest

/-- export_history_as_text: the header followed by one section per record,
accumulated left to right exactly as the source loop concatenates. -/
def export_history_as_text (fs : FileState) : String :=
  (load_history fs).foldl (fun content item => content ++ record_block item) export_header

/-- One part of a Gemini response candidate. -/
structure GeminiPart where
  text : String
  deriving DecidableEq

/-- The content object of a Gemini response candidate. -/
structure GeminiContent where
  parts : List GeminiPart
  deriving DecidableEq

/-- One candidate of a Gemini response. -/
structure GeminiCandidate where
  content : GeminiContent
  deriving DecidableEq

/-- The HTTP response of the Gemini endpoint: the success flag and status
code of requests, the body used in error reports, and the parsed candidate
list of a successful response. -/
structure GeminiResponse where
  ok : Bool
  status_code : Nat
  body : String
  candidates : List GeminiCandidate
  deriving DecidableEq

/-- generate_with_gemini: raises when the api key is None; on a non-ok
response raises carrying the status code and body (rewrapped by the outer
except clause); on a well-formed response returns the stripped text of the
first part of the first candidate, or the sentinel when none exists. -/
def generate_with_gemini (api_key : Option String) (resp : GeminiResponse) :
    Except String String :=
  match api_key with
  | none => .error "GEMINI_API_KEY not set"
  | some _ =>
      if !resp.ok then
        .error ("Gemini generation failed: Gemini API error ("
                  ++ toString resp.status_code ++ "): " ++ resp.body)
      else
        match resp.candidates with
        | [] => .ok "No response generated"
        | c :: _ =>
            match c.content.parts with
            | [] => .ok "No response generated"
            | p :: _ => .ok (pyStrip p.text)

/-- Python truthiness of an optional configuration string: None and the
empty string are falsy. -/
def truthyKey : Option String → Bool
  | none => false
  | some s => !(s == "")

/-- generate_text: dispatches on the lowered provider name; raises when the
configured key of the selected provider is falsy; the gemini branch runs
generate_with_gemini on the HTTP response, the openai branch is modelled by
its result value, and an unknown provider raises. -/
def generate_text (gemini_api_key openai_api_key : Option String) (provider : String)
    (resp : GeminiResponse) (openai_result : Except String String) :
    Except String String :=
  let p := pyLower provider
  if p == "gemini" then
    if !truthyKey gemini_api_key then
      .error "GEMINI_API_KEY not found in environment. Set it in .env."
    else generate_with_gemini gemini_api_key resp
  else if p == "openai" then
    if !truthyKey openai_api_key then
      .error "OPENAI_API_KEY not found in environment. Set it in .env."
    else openai_result
  else
    .error ("Unknown model provider: " ++ p)

/-- C4: load_history returns the empty sequence when the history file is
absent and when its contents fail to parse as JSON (the failure is
swallowed: load_history is a total function and never raises), and when
the file parses it returns the stored sequence of records. -/
theorem claim4_load_error_handling :
    load_history none = ([] : List ContentRecord)
    ∧ load_history (some .malformed) = ([] : List ContentRecord)
    ∧ ∀ records : List ContentRecord, load_history (some (.wellFormed records)) = records :=
  ⟨rfl, rfl, fun _ => rfl⟩

/-- C10: save_to_history keeps every previously stored record unchanged
and in place (the old history is the prefix of the new one), appends
exactly one record at the end, and that record preserves every
user-supplied field of the input, overwriting only id, timestamp and
favorite. -/
theorem claim10_save_frame : ∀ (fs : FileState) (record : ContentInput) (now : String),
    (load_history (save_to_history fs record now)).length = (load_history fs).length + 1
    ∧ (load_history (save_to_history fs record now)).take (load_history fs).length
        = load_history fs
    ∧ (load_history (save_to_history fs record now)).getLast?
        = some (mkSavedRecord record ((load_history fs).length + 1) now)
    ∧ (mkSavedRecord record ((load_history fs).length + 1) now).keyword = record.keyword
    ∧ (mkSavedRecord record ((load_history fs).length + 1) now).content_type = record.content_type
    ∧ (mkSavedRecord record ((load_history fs).length + 1) now).language = record.language
    ∧ (mkSavedRecord record ((load_history fs).length + 1) now).tone = record.tone
    ∧ (mkSavedRecord record ((load_history fs).length + 1) now).audience = record.audience
    ∧ (mkSavedRecord record ((load_history fs).length + 1) now).rhyme_scheme = record.rhyme_scheme
    ∧ (mkSavedRecord record ((load_history fs).length + 1) now).length_words = record.length_words
    ∧ (mkSavedRecord record ((load_history fs).length + 1) now).tags = record.tags
    ∧ (mkSavedRecord record ((load_history fs).length + 1) now).output = record.output
    ∧ (mkSavedRecord record ((load_history fs).length + 1) now).id = (load_history fs).length + 1
    ∧ (mkSavedRecord record ((load_history fs).length + 1) now).timestamp = now
    ∧ (mkSavedRecord record ((load_history fs).length + 1) now).favorite = false := by
  intro fs record now
  have hload : load_history (save_to_history fs record now)
      = load_history fs ++ [mkSavedRecord record ((load_history fs).length + 1) now] := rfl
  refine ⟨?_, ?_, ?_, rfl, rfl, rfl, rfl, rfl, rfl, rfl, rfl, rfl, rfl, rfl, rfl⟩
  · rw [hload]; simp
  · rw [hload]; exact List.take_left _ _
  · rw [hload]; exact List.getLast?_concat _

/-- C7: build_prompt appends the rhyme clause exactly when the content
type is Poem and the rhyme scheme is not Free Verse (first conjunct, the
structural form of the append step); for Poem with ABAB the result
contains the ABAB clause, and for Free Verse or a non-Poem type the
result contains no rhyme clause at all. -/
theorem claim7_rhyme_clause :
    (∀ (keyword content_type language tone audience rhyme_scheme : String)
       (length_words : Nat),
       build_prompt keyword content_type language tone audience rhyme_scheme length_words
         = pyStrip (prompt_before_rhyme keyword content_type language tone audience length_words
             ++ (if content_type == "Poem" && rhyme_scheme != "Free Verse"
                 then (rhyme_map.lookup rhyme_scheme).getD "" ++ ". " else "")))
    ∧ containsSubstr (build_prompt "love" "Poem" "English" "Inspirational" "General" "ABAB" 12)
        "Use ABAB rhyme scheme" = true
    ∧ containsSubstr (build_prompt "love" "Poem" "English" "Inspirational" "General" "Free Verse" 12)
        "rhyme" = false
    ∧ containsSubstr (build_prompt "love" "Quote" "English" "Inspirational" "General" "ABAB" 12)
        "rhyme" = false := by
  refine ⟨?_, by decide, by decide, by decide⟩
  intro keyword content_type language tone audience rhyme_scheme length_words
  simp only [build_prompt, prompt_before_rhyme]
  cases h : (content_type == "Poem" && rhyme_scheme != "Free Verse") with
  | false => simp [h, string_append_empty]
  | true => simp [h, string_append_assoc]

theorem export_foldl (l : List ContentRecord) : ∀ (init : String),
    l.foldl (fun content item => content ++ record_block item) init
      = init ++ history_blocks l := by
  induction l with
  | nil => intro init; simp only [List.foldl, history_blocks]; rw [string_append_empty]
  | cons x xs ih =>
      intro init
      simp only [List.foldl, history_blocks]
      rw [ih, string_append_assoc]

theorem id_in_blocks : ∀ (l : List ContentRecord) (r : ContentRecord), r ∈ l →
    listContains (toString r.id).data (history_blocks l).data = true := by
  intro l
  induction l with
  | nil => intro r hr; simp at hr
  | cons x xs ih =>
      intro r hr
      rcases List.mem_cons.mp hr with heq | hmem
      · subst heq
        simp only [history_blocks, record_block, string_data_append, List.append_assoc]
        apply listContains_append_left
        exact listContains_append_right _ _ _ (listContains_self _)
      · simp only [history_blocks, string_data_append]
        apply listContains_append_left
        exact ih r hmem

theorem keyword_in_blocks : ∀ (l : List ContentRecord) (r : ContentRecord), r ∈ l →
    listContains r.keyword.data (history_blocks l).data = true := by
  intro l
  induction l with
  | nil => intro r hr; simp at hr
  | cons x xs ih =>
      intro r hr
      rcases List.mem_cons.mp hr with heq | hmem
      · subst heq
        simp only [history_blocks, record_block, string_data_append, List.append_assoc]
        apply listContains_append_left
        apply listContains_append_left
        apply listContains_append_left
        apply listContains_append_left
        exact listContains_append_right _ _ _ (listContains_self _)
      · simp only [history_blocks, string_data_append]
        apply listContains_append_left
        exact ih r hmem

/-- C8: for every store state, the exported text is the fixed header
followed by one formatted section per record in store order (first
conjunct), and it contains the id and the keyword of every stored record
as literal substrings. -/
theorem claim8_export : ∀ (fs : FileState),
    export_history_as_text fs = export_header ++ history_blocks (load_history fs)
    ∧ ∀ r ∈ load_history fs,
        containsSubstr (export_history_as_text fs) (toString r.id) = true
        ∧ containsSubstr (export_history_as_text fs) r.keyword = true := by
  intro fs
  have h1 : export_history_as_text fs = export_header ++ history_blocks (load_history fs) :=
    export_foldl (load_history fs) export_header
  refine ⟨h1, ?_⟩
  intro r hr
  constructor
  · show listContains (toString r.id).data (export_history_as_text fs).data = true
    rw [h1, string_data_append]
    apply listContains_append_left
    exact id_in_blocks _ r hr
  · show listContains r.keyword.data (export_history_as_text fs).data = true
    rw [h1, string_data_append]
    apply listContains_append_left
    exact keyword_in_blocks _ r hr

/-- A concrete stored record used to instantiate theorems. -/
def recA : ContentRecord :=
  { id := 1, keyword := "love", content_type := "Quote", language := "English"
    tone := "Funny", audience := "General", rhyme_scheme := "Free Verse"
    length_words := 12, tags := "work", output := "some text"
    timestamp := "2024-01-01T00:00:00", favorite := false }

/-- A second concrete stored record used to instantiate theorems. -/
def recB : ContentRecord :=
  { id := 2, keyword := "success", content_type := "Poem", language := "French"
    tone := "Serious", audience := "Kids", rhyme_scheme := "ABAB"
    length_words := 40, tags := "goal", output := "more text"
    timestamp := "2024-01-02T00:00:00", favorite := true }

/-- A store holding the single record recA. -/
def fsA : FileState := some (.wellFormed [recA])

/-- A store holding recA and recB. -/
def fsT : FileState := some (.wellFormed [recA, recB])

theorem claim8_export_witness :
    recA ∈ load_history fsA
    ∧ containsSubstr (export_history_as_text fsA) (toString recA.id) = true
    ∧ containsSubstr (export_history_as_text fsA) recA.keyword = true :=
  ⟨by decide, ((claim8_export fsA).2 recA (by decide)).1, ((claim8_export fsA).2 recA (by decide)).2⟩

theorem search_all_eq_filter (query : String) : ∀ (l : List ContentRecord),
    search_filter_loop query (some "All") false l = l.filter (query_matches query) := by
  intro l
  induction l with
  | nil => rfl
  | cons x xs ih =>
      simp only [search_filter_loop, List.filter_cons, Bool.false_and, Bool.false_eq_true,
        if_false]
      have hAll : (!(("All" : String) == "") && !(("All" : String) == "All")
          && !(x.content_type == "All")) = false := by
        simp
      simp only [hAll, Bool.false_eq_true, if_false]
      cases hq : query_matches query x with
      | false => simp [hq, ih]
      | true => simp [hq, ih]

/-- C5: searching with query, type filter All and favorite-only off
returns exactly the loaded records whose keyword, output or tags field
case-insensitively contains the query as a substring: the result is the
filter of the match predicate over the store, so a record is returned
precisely when it is stored and matches. -/
theorem claim5_search : ∀ (fs : FileState) (query : String),
    search_history fs query (some "All") false = (load_history fs).filter (query_matches query)
    ∧ ∀ r : ContentRecord,
        r ∈ search_history fs query (some "All") false
          ↔ r ∈ load_history fs ∧ query_matches query r = true := by
  intro fs query
  have h0 : search_history fs query (some "All") false
      = (load_history fs).filter (query_matches query) :=
    search_all_eq_filter query (load_history fs)
  refine ⟨h0, ?_⟩
  intro r
  rw [h0]
  exact List.mem_filter

theorem toggle_first_involutive (item_id : Nat) : ∀ (l : List ContentRecord),
    toggle_first item_id (toggle_first item_id l) = l := by
  intro l
  induction l with
  | nil => rfl
  | cons x xs ih =>
      cases hx : (x.id == item_id) with
      | true => simp [toggle_first, hx, Bool.not_not]
      | false => simp [toggle_first, hx, ih]

theorem toggle_first_no_match (item_id : Nat) : ∀ (l : List ContentRecord),
    (∀ r ∈ l, r.id ≠ item_id) → toggle_first item_id l = l := by
  intro l
  induction l with
  | nil => intro _; rfl
  | cons x xs ih =>
      intro h
      have hx : (x.id == item_id) = false :=
        beq_eq_false_iff_ne.mpr (h x (List.mem_cons_self x xs))
      simp only [toggle_first, hx, Bool.false_eq_true, if_false, List.cons.injEq]
      exact ⟨trivial, ih (fun r hr => h r (List.mem_cons_of_mem x hr))⟩

theorem toggle_first_split (item_id : Nat) : ∀ (pre : List ContentRecord)
    (x : ContentRecord) (post : List ContentRecord),
    (∀ r ∈ pre, r.id ≠ item_id) → x.id = item_id →
    toggle_first item_id (pre ++ x :: post)
      = pre ++ ({ x with favorite := !x.favorite } :: post) := by
  intro pre
  induction pre with
  | nil =>
      intro x post _ hx
      have hb : (x.id == item_id) = true := beq_iff_eq.mpr hx
      simp [toggle_first, hb]
  | cons p ps ih =>
      intro x post h hx
      have hp : (p.id == item_id) = false :=
        beq_eq_false_iff_ne.mpr (h p (List.mem_cons_self p ps))
      simp only [List.cons_append, toggle_first, hp, Bool.false_eq_true, if_false,
        List.cons.injEq]
      exact ⟨trivial, ih x post (fun r hr => h r (List.mem_cons_of_mem p hr)) hx⟩

/-- C6: toggling a favorite twice restores the whole store (so in
particular the favorite value of every record); a single toggle is a
silent no-op on the store contents when no record has the id, and flips
exactly the favorite flag of the first record having the id otherwise. -/
theorem claim6_toggle : ∀ (fs : FileState) (item_id : Nat),
    load_history (toggle_favorite (toggle_favorite fs item_id) item_id) = load_history fs
    ∧ ((∀ r ∈ load_history fs, r.id ≠ item_id) →
         load_history (toggle_favorite fs item_id) = load_history fs)
    ∧ (∀ (pre : List ContentRecord) (x : ContentRecord) (post : List ContentRecord),
         load_history fs = pre ++ x :: post →
         (∀ r ∈ pre, r.id ≠ item_id) → x.id = item_id →
         load_history (toggle_favorite fs item_id)
           = pre ++ ({ x with favorite := !x.favorite } :: post)) := by
  intro fs item_id
  refine ⟨toggle_first_involutive item_id (load_history fs), ?_, ?_⟩
  · intro h
    exact toggle_first_no_match item_id (load_history fs) h
  · intro pre x post hsplit hpre hx
    show toggle_first item_id (load_history fs) = _
    rw [hsplit]
    exact toggle_first_split item_id pre x post hpre hx

theorem claim6_toggle_witness :
    ((∀ r ∈ load_history fsT, r.id ≠ 99)
       ∧ load_history (toggle_favorite fsT 99) = load_history fsT)
    ∧ (load_history fsT = [recA] ++ recB :: []
       ∧ (∀ r ∈ [recA], r.id ≠ 2) ∧ recB.id = 2
       ∧ load_history (toggle_favorite fsT 2)
           = [recA] ++ ({ recB with favorite := !recB.favorite } :: [])) :=
  ⟨⟨by decide, (claim6_toggle fsT 99).2.1 (by decide)⟩,
   ⟨rfl, by decide, rfl, (claim6_toggle fsT 2).2.2 [recA] recB [] rfl (by decide) rfl⟩⟩

/-- The id column of a store produced without deletions: exactly the
interval 1..length. -/
def ids_canonical (l : List ContentRecord) : Prop :=
  l.map (fun r => r.id) = List.range' 1 l.length

theorem toggle_first_map_id (item_id : Nat) : ∀ (l : List ContentRecord),
    (toggle_first item_id l).map (fun r => r.id) = l.map (fun r => r.id) := by
  intro l
  induction l with
  | nil => rfl
  | cons x xs ih =>
      cases hx : (x.id == item_id) with
      | true => simp [toggle_first, hx]
      | false => simp [toggle_first, hx, ih]

theorem toggle_first_length (item_id : Nat) (l : List ContentRecord) :
    (toggle_first item_id l).length = l.length := by
  have h := congrArg List.length (toggle_first_map_id item_id l)
  simpa using h

theorem canonical_save (h : List ContentRecord) (record : ContentInput) (now : String)
    (hc : ids_canonical h) : ids_canonical (h ++ [mkSavedRecord record (h.length + 1) now]) := by
  unfold ids_canonical at hc ⊢
  simp only [List.map_append, List.map_cons, List.map_nil, List.length_append,
    List.length_cons, List.length_nil, Nat.zero_add]
  rw [hc, List.range'_1_concat]
  simp [mkSavedRecord, Nat.add_comm]

theorem canonical_apply (fs : FileState) (op : Op) (hop : isDeleteOp op = false)
    (hc : ids_canonical (load_history fs)) : ids_canonical (load_history (apply_op fs op)) := by
  cases op with
  | save record now =>
      show ids_canonical
        (load_history fs ++ [mkSavedRecord record ((load_history fs).length + 1) now])
      exact canonical_save (load_history fs) record now hc
  | toggle item_id =>
      show ids_canonical (toggle_first item_id (load_history fs))
      unfold ids_canonical
      rw [toggle_first_map_id, toggle_first_length]
      exact hc
  | delete item_id => simp [isDeleteOp] at hop
  | bulkDelete ids => simp [isDeleteOp] at hop
  | clearAll =>
      show ids_canonical []
      simp [ids_canonical]

theorem canonical_run : ∀ (ops : List Op) (fs : FileState),
    ids_canonical (load_history fs) → (∀ op ∈ ops, isDeleteOp op = false) →
    ids_canonical (load_history (ops.foldl apply_op fs)) := by
  intro ops
  induction ops with
  | nil => intro fs h _; exact h
  | cons op rest ih =>
      intro fs h hall
      simp only [List.foldl_cons]
      exact ih (apply_op fs op)
        (canonical_apply fs op (hall op (List.mem_cons_self op rest)) h)
        (fun o ho => hall o (List.mem_cons_of_mem op ho))

/-- C1 amended: for every sequence of store operations that contains no
delete and no bulk delete (append, toggle favorite, clear all), every
record in the store has a unique id at any read; the original claim fails
once a delete is allowed, see the counterexample. -/
theorem claim1_unique_ids : ∀ (ops : List Op),
    (∀ op ∈ ops, isDeleteOp op = false) →
    ((load_history (run_ops ops)).map (fun r => r.id)).Nodup := by
  intro ops h
  have hc : ids_canonical (load_history (run_ops ops)) :=
    canonical_run ops none (by simp [ids_canonical, load_history]) h
  unfold ids_canonical at hc
  rw [hc]
  exact List.nodup_range' 1 _

/-- A deletion-free operation sequence exercising save, toggle and clear. -/
def opsOK : List Op :=
  [.save sampleInput "a", .toggle 1, .clearAll, .save sampleInput "b", .save sampleInput "c"]

theorem claim1_unique_ids_witness :
    (∀ op ∈ opsOK, isDeleteOp op = false)
    ∧ ((load_history (run_ops opsOK)).map (fun r => r.id)).Nodup :=
  ⟨by decide, claim1_unique_ids opsOK (by decide)⟩

/-- C1 counterexample: after append, append, delete 1, append, the store
holds two records that share id 2, so the uniqueness invariant of the
original claim is violated by a delete followed by an append. -/
theorem claim1_counterexample :
    ¬ ((load_history (run_ops opsDup4)).map (fun r => r.id)).Nodup := by decide

/-- C2 amended: append followed by load shows the appended record at the
end of the store with favorite false, timestamp equal to the save-time
clock string, and id assigned as current length + 1; that id is strictly
greater than every prior id provided every prior id is at most the store
length (true for deletion-free stores), while in general a prior id can
equal the new id, see the counterexample. -/
theorem claim2_append_load : ∀ (fs : FileState) (record : ContentInput) (now : String),
    load_history (save_to_history fs record now)
      = load_history fs ++ [mkSavedRecord record ((load_history fs).length + 1) now]
    ∧ (mkSavedRecord record ((load_history fs).length + 1) now).favorite = false
    ∧ (mkSavedRecord record ((load_history fs).length + 1) now).timestamp = now
    ∧ (mkSavedRecord record ((load_history fs).length + 1) now).id
        = (load_history fs).length + 1
    ∧ ((∀ x ∈ load_history fs, x.id ≤ (load_history fs).length) →
         ∀ x ∈ load_history fs,
           x.id < (mkSavedRecord record ((load_history fs).length + 1) now).id) := by
  intro fs record now
  refine ⟨rfl, rfl, rfl, rfl, ?_⟩
  intro h x hx
  have hle := h x hx
  show x.id < (load_history fs).length + 1
  omega

theorem claim2_append_load_witness :
    (∀ x ∈ load_history fsA, x.id ≤ (load_history fsA).length)
    ∧ (∀ x ∈ load_history fsA,
         x.id < (mkSavedRecord sampleInput ((load_history fsA).length + 1) "t").id) :=
  ⟨by decide, (claim2_append_load fsA sampleInput "t").2.2.2.2 (by decide)⟩

/-- C2 counterexample: in the reachable store left by append, append,
delete 1, the single prior record has id 2 and the next append assigns
id 2 again, which is not strictly greater than the prior maximum. -/
theorem claim2_counterexample :
    (load_history (run_ops opsDup)).map (fun r => r.id) = [2]
    ∧ (load_history (save_to_history (run_ops opsDup) sampleInput "c")).map (fun r => r.id)
        = [2, 2]
    ∧ ¬ (∀ x ∈ load_history (run_ops opsDup),
          x.id < (mkSavedRecord sampleInput
              ((load_history (run_ops opsDup)).length + 1) "c").id) :=
  ⟨by decide, by decide, by decide⟩

theorem length_filter_eq_iff {α : Type} (p : α → Bool) : ∀ (l : List α),
    (l.filter p).length = l.length ↔ ∀ a ∈ l, p a = true := by
  intro l
  induction l with
  | nil => simp
  | cons x xs ih =>
      cases hp : p x with
      | true => simp [List.filter_cons, hp, ih, List.forall_mem_cons]
      | false =>
          have hle := List.length_filter_le p xs
          simp only [List.filter_cons, hp, Bool.false_eq_true, if_false, List.length_cons]
          constructor
          · intro hlen; omega
          · intro hall
            have hx := hall x (List.mem_cons_self x xs)
            rw [hp] at hx
            exact Bool.noConfusion hx

theorem filter_ne_length_of_nodup : ∀ (l : List ContentRecord) (item_id : Nat),
    (l.map (fun r => r.id)).Nodup → (∃ r ∈ l, r.id = item_id) →
    (l.filter (fun r => r.id != item_id)).length + 1 = l.length := by
  intro l
  induction l with
  | nil => intro item_id _ hex; simp at hex
  | cons x xs ih =>
      intro item_id hnd hex
      have hnd2 : x.id ∉ xs.map (fun r => r.id) ∧ (xs.map (fun r => r.id)).Nodup := by
        simpa [List.nodup_cons] using hnd
      cases hx : (x.id == item_id) with
      | true =>
          have hxe : x.id = item_id := beq_iff_eq.mp hx
          have hkeep : (xs.filter (fun r => r.id != item_id)).length = xs.length := by
            apply (length_filter_eq_iff _ xs).mpr
            intro a ha
            have hane : a.id ≠ item_id := by
              intro he
              apply hnd2.1
              rw [hxe, ← he]
              exact List.mem_map_of_mem _ ha
            simpa using hane
          have hxf : (x.id != item_id) = false := by simp [bne, hx]
          simp only [List.filter_cons, hxf, Bool.false_eq_true, if_false, List.length_cons]
          rw [hkeep]
      | false =>
          have hxne : x.id ≠ item_id := beq_eq_false_iff_ne.mp hx
          have hxt : (x.id != item_id) = true := by simp [bne, hx]
          have hex2 : ∃ r ∈ xs, r.id = item_id := by
            rcases hex with ⟨r, hr, hre⟩
            rcases List.mem_cons.mp hr with he | hm
            · rw [← he] at hxne; exact absurd hre hxne
            · exact ⟨r, hm, hre⟩
          have hlen := ih item_id hnd2.2 hex2
          simp only [List.filter_cons, hxt, if_true, List.length_cons]
          omega

/-- C3 amended: delete removes every record whose id matches (not only
the first) and reports true exactly when at least one record matched;
when the stored ids are pairwise distinct and the id is present the size
decreases by exactly 1; on a non-existent id the store is unchanged and
delete returns false.  With duplicate ids (which are reachable) the size
can decrease by more than 1, see the counterexample. -/
theorem claim3_delete : ∀ (fs : FileState) (item_id : Nat),
    load_history ((delete_content fs item_id).1)
      = (load_history fs).filter (fun r => r.id != item_id)
    ∧ ((delete_content fs item_id).2 = true ↔ ∃ r ∈ load_history fs, r.id = item_id)
    ∧ (((load_history fs).map (fun r => r.id)).Nodup →
         (∃ r ∈ load_history fs, r.id = item_id) →
         (load_history ((delete_content fs item_id).1)).length + 1
           = (load_history fs).length)
    ∧ ((∀ r ∈ load_history fs, r.id ≠ item_id) →
         load_history ((delete_content fs item_id).1) = load_history fs
         ∧ (delete_content fs item_id).2 = false) := by
  intro fs item_id
  have h1 : load_history ((delete_content fs item_id).1)
      = (load_history fs).filter (fun r => r.id != item_id) := rfl
  have h2b : (delete_content fs item_id).2
      = ((load_history fs).length
          != ((load_history fs).filter (fun r => r.id != item_id)).length) := rfl
  refine ⟨h1, ?_, ?_, ?_⟩
  · rw [h2b]
    constructor
    · intro hbne
      have hne : (load_history fs).length
          ≠ ((load_history fs).filter (fun r => r.id != item_id)).length :=
        bne_iff_ne.mp hbne
      by_contra hno
      push_neg at hno
      apply hne
      have hfe : (load_history fs).filter (fun r => r.id != item_id) = load_history fs :=
        List.filter_eq_self.mpr (fun a ha => bne_iff_ne.mpr (hno a ha))
      rw [hfe]
    · rintro ⟨r, hr, hre⟩
      apply bne_iff_ne.mpr
      intro heq
      have hall := (length_filter_eq_iff _ (load_history fs)).mp heq.symm
      have hrt := hall r hr
      rw [hre] at hrt
      simp at hrt
  · intro hnd hex
    rw [h1]
    exact filter_ne_length_of_nodup (load_history fs) item_id hnd hex
  · intro hall
    have hfe : (load_history fs).filter (fun r => r.id != item_id) = load_history fs :=
      List.filter_eq_self.mpr (fun a ha => bne_iff_ne.mpr (hall a ha))
    constructor
    · rw [h1, hfe]
    · rw [h2b, hfe]; simp

theorem claim3_delete_witness :
    (((load_history fsT).map (fun r => r.id)).Nodup
       ∧ (∃ r ∈ load_history fsT, r.id = 1)
       ∧ (load_history ((delete_content fsT 1).1)).length + 1 = (load_history fsT).length)
    ∧ ((∀ r ∈ load_history fsT, r.id ≠ 99)
       ∧ load_history ((delete_content fsT 99).1) = load_history fsT
       ∧ (delete_content fsT 99).2 = false) :=
  ⟨⟨by decide, by decide, (claim3_delete fsT 1).2.2.1 (by decide) (by decide)⟩,
   ⟨by decide, ((claim3_delete fsT 99).2.2.2 (by decide)).1,
    ((claim3_delete fsT 99).2.2.2 (by decide)).2⟩⟩

/-- C3 counterexample: in the reachable store holding two records with
id 2, deleting id 2 removes both records, so the size does not decrease
by exactly 1 although a record with that id existed. -/
theorem claim3_counterexample :
    (∃ r ∈ load_history (run_ops opsDup4), r.id = 2)
    ∧ (load_history ((delete_content (run_ops opsDup4) 2).1)).length + 1
        ≠ (load_history (run_ops opsDup4)).length :=
  ⟨by decide, by decide⟩

/-- C9: generate_text fails with a typed provider error when the
configured key of the selected provider is absent, and on a non-success
HTTP status it fails with an error message that carries the status code
and the body as substrings; when the response is well-formed but has no
candidate text (no candidate, or a candidate without parts) it returns
the explicit sentinel string instead of raising. -/
theorem claim9_generate_errors : ∀ (resp : GeminiResponse) (openai_key : Option String)
    (openai_result : Except String String) (key : String),
    generate_text none openai_key "gemini" resp openai_result
      = .error "GEMINI_API_KEY not found in environment. Set it in .env."
    ∧ generate_text (some key) none "openai" resp openai_result
        = .error "OPENAI_API_KEY not found in environment. Set it in .env."
    ∧ (key ≠ "" → resp.ok = false →
        generate_text (some key) openai_key "gemini" resp openai_result
          = .error ("Gemini generation failed: Gemini API error ("
              ++ toString resp.status_code ++ "): " ++ resp.body)
        ∧ containsSubstr ("Gemini generation failed: Gemini API error ("
              ++ toString resp.status_code ++ "): " ++ resp.body)
            (toString resp.status_code) = true
        ∧ containsSubstr ("Gemini generation failed: Gemini API error ("
              ++ toString resp.status_code ++ "): " ++ resp.body) resp.body = true)
    ∧ (key ≠ "" → resp.ok = true → resp.candidates = [] →
        generate_text (some key) openai_key "gemini" resp openai_result
          = .ok "No response generated")
    ∧ (∀ (c : GeminiCandidate) (rest : List GeminiCandidate),
        key ≠ "" → resp.ok = true → resp.candidates = c :: rest → c.content.parts = [] →
        generate_text (some key) openai_key "gemini" resp openai_result
          = .ok "No response generated") := by
  intro resp openai_key openai_result key
  have hgem : (pyLower "gemini" == "gemini") = true := by decide
  have hopen1 : (pyLower "openai" == "gemini") = false := by decide
  have hopen2 : (pyLower "openai" == "openai") = true := by decide
  refine ⟨?_, ?_, ?_, ?_, ?_⟩
  · simp [generate_text, hgem, truthyKey]
  · simp [generate_text, hopen1, hopen2, truthyKey]
  · intro hk hok
    have hb : (key == "") = false := beq_eq_false_iff_ne.mpr hk
    have hkt : truthyKey (some key) = true := by simp [truthyKey, hb]
    refine ⟨?_, ?_, ?_⟩
    · simp [generate_text, hgem, hkt, generate_with_gemini, hok]
    · show listContains (toString resp.status_code).data _ = true
      simp only [string_data_append, List.append_assoc]
      apply listContains_append_left
      exact listContains_append_right _ _ _ (listContains_self _)
    · show listContains resp.body.data _ = true
      simp only [string_data_append, List.append_assoc]
      apply listContains_append_left
      apply listContains_append_left
      apply listContains_append_left
      exact listContains_self _
  · intro hk hok hcand
    have hb : (key == "") = false := beq_eq_false_iff_ne.mpr hk
    have hkt : truthyKey (some key) = true := by simp [truthyKey, hb]
    simp [generate_text, hgem, hkt, generate_with_gemini, hok, hcand]
  · intro c rest hk hok hcand hparts
    have hb : (key == "") = false := beq_eq_false_iff_ne.mpr hk
    have hkt : truthyKey (some key) = true := by simp [truthyKey, hb]
    simp [generate_text, hgem, hkt, generate_with_gemini, hok, hcand, hparts]

/-- A failing HTTP response of the Gemini endpoint. -/
def respBad : GeminiResponse :=
  { ok := false, status_code := 403, body := "forbidden", candidates := [] }

/-- A successful HTTP response of the Gemini endpoint with no candidate. -/
def respEmpty : GeminiResponse :=
  { ok := true, status_code := 200, body := "empty", candidates := [] }

theorem claim9_generate_errors_witness :
    (("k" : String) ≠ "" ∧ respBad.ok = false
      ∧ generate_text (some "k") none "gemini" respBad (.ok "x")
          = .error ("Gemini generation failed: Gemini API error ("
              ++ toString respBad.status_code ++ "): " ++ respBad.body))
    ∧ (respEmpty.ok = true ∧ respEmpty.candidates = []
      ∧ generate_text (some "k") none "gemini" respEmpty (.ok "x")
          = .ok "No response generated") :=
  ⟨⟨by decide, rfl,
    ((claim9_generate_errors respBad none (Except.ok "x") "k").2.2.1 (by decide) rfl).1⟩,
   ⟨rfl, rfl,
    (claim9_generate_errors respEmpty none (Except.ok "x") "k").2.2.2.1 (by decide) rfl rfl⟩⟩
